import Mathlib

/-!
Verification development for the unit-facing RPC layer of a service supervisor
(source: src/core/dbus-unit.c).  The C functions are shallowly embedded as
executable Lean definitions: in-place mutation of a unit becomes explicit state
passing, D-Bus message reads become typed arguments, and external collaborators
(resource controller, scheduler, credential store) become explicit environment
records or function parameters.  Integer return codes of the C helpers are kept
as `Int` errno-style codes (negative on failure) where the control flow branches
on them.
-/

namespace Systemd

/-- Error classes of the bus error taxonomy used by the handlers in this file
(`SD_BUS_ERROR_INVALID_ARGS`, `SD_BUS_ERROR_ACCESS_DENIED`,
`SD_BUS_ERROR_PROPERTY_READ_ONLY`, `BUS_ERROR_NO_SUCH_UNIT`,
`BUS_ERROR_UNIT_MASKED`, `BUS_ERROR_ONLY_BY_DEPENDENCY`,
`BUS_ERROR_NOT_REFERENCED`), plus raw errno-propagated failures. -/
inductive ErrClass where
  | invalidArgs
  | accessDenied
  | propertyReadOnly
  | noSuchUnit
  | unitMasked
  | onlyByDependency
  | notReferenced
  | resourceUnavailable
  | errno (e : Int)
  deriving DecidableEq, Repr

/-- A bus error: class plus human-readable message (sd_bus_error). -/
structure BusError where
  cls : ErrClass
  msg : String
  deriving DecidableEq, Repr

/-! ## ControlGroup property (property_get_cgroup) -/

/-- `empty_to_root` from path-util: the empty path denotes the root cgroup. -/
def empty_to_root (s : String) : String := if s = "" then "/" else s

/-- Embedding of `property_get_cgroup`: a `none` cgroup path is reported as the
empty string (appending a NULL string on the wire serializes as ""), an empty
internal path is reported as "/" via `empty_to_root`, anything else verbatim. -/
def property_get_cgroup (cgroup_path : Option String) : String :=
  match cgroup_path with
  | none => ""
  | some s => empty_to_root s

/-! ## Job property (property_get_job) -/

/-- A scheduler job, as referenced back from a unit: only its numeric id is
read by this layer. -/
structure Job where
  id : Nat
  deriving DecidableEq, Repr

/-- Modelled from the spec: the external job object-path constructor
(`job_dbus_path`, defined outside this file); per the RPC surface each job is
exposed on a dedicated object path derived from its numeric id. -/
def job_dbus_path (j : Job) : String :=
  "/org/freedesktop/systemd1/job/" ++ toString j.id

/-- Embedding of `property_get_job`: with no outstanding job the reserved pair
(0, "/") is reported, otherwise the job id together with its object path. -/
def property_get_job (job : Option Job) : Nat × String :=
  match job with
  | none => (0, "/")
  | some j => (j.id, job_dbus_path j)

/-! ## Job dispatcher (bus_unit_queue_job) -/

/-- Job types handled by the dispatcher (subset of JobType relevant to
`bus_unit_queue_job`, including the collapse targets). -/
inductive JobType where
  | start
  | stop
  | reload
  | restart
  | tryRestart
  | reloadOrStart
  | tryReload
  | nop
  deriving DecidableEq, Repr

/-- Job modes (validated upstream in `bus_unit_method_start_generic`). -/
inductive JobMode where
  | replace
  | fail
  | isolate
  | ignoreDependencies
  | ignoreRequirements
  | flush
  deriving DecidableEq, Repr

/-- Unit load states (UnitLoadState). -/
inductive UnitLoadState where
  | stub
  | loaded
  | notFound
  | masked
  | error
  | merged
  | badSetting
  deriving DecidableEq, Repr

/-- Unit active states (UnitActiveState), computed by the external state
machine and only read here. -/
inductive UnitActiveState where
  | active
  | reloading
  | inactive
  | failed
  | activating
  | deactivating
  deriving DecidableEq, Repr

/-- UNIT_IS_ACTIVE_OR_RELOADING. -/
def UNIT_IS_ACTIVE_OR_RELOADING : UnitActiveState → Bool
  | .active => true
  | .reloading => true
  | _ => false

/-- UNIT_IS_INACTIVE_OR_FAILED. -/
def UNIT_IS_INACTIVE_OR_FAILED : UnitActiveState → Bool
  | .inactive => true
  | .failed => true
  | _ => false

/-- The slice of unit state read by the job dispatcher.  `can_reload` stands
for the external capability query `unit_can_reload`, `active_state` for
`unit_active_state`. -/
structure UnitJ where
  id : String
  load_state : UnitLoadState
  active_state : UnitActiveState
  refuse_manual_start : Bool
  refuse_manual_stop : Bool
  can_reload : Bool
  deriving DecidableEq, Repr

/-- Modelled from the spec: the external scheduler's job-type collapsing
("reload-collapsing", listed among the Job Dispatcher policy guards; the
function `job_type_collapse` is not part of this file).  A reload-or-start job
runs a reload when the unit is active or reloading and a start otherwise;
try-restart and try-reload collapse to a no-op when the unit is not active or
reloading. -/
def job_type_collapse (t : JobType) (u : UnitJ) : JobType :=
  match t with
  | .tryRestart => if UNIT_IS_ACTIVE_OR_RELOADING u.active_state then .restart else .nop
  | .tryReload => if UNIT_IS_ACTIVE_OR_RELOADING u.active_state then .reload else .nop
  | .reloadOrStart => if UNIT_IS_ACTIVE_OR_RELOADING u.active_state then .reload else .start
  | _ => t

/-- The dependency-only refusal message of `bus_unit_queue_job`. -/
def only_by_dependency_msg (u : UnitJ) : String :=
  "Operation refused, unit " ++ u.id ++
    " may be requested by dependency only (it is configured to refuse manual start/stop)."

/-- Embedding of `bus_unit_queue_job`: first the reload_if_possible downgrade,
then the stop-on-nonexistent-unit check, then the refuse-manual guard; on
success the (possibly downgraded) job type is submitted to the external
scheduler, which is what the `.ok` payload records. -/
def bus_unit_queue_job (u : UnitJ) (type0 : JobType) (_mode : JobMode)
    (reload_if_possible : Bool) : Except BusError JobType :=
  let type :=
    if reload_if_possible ∧ u.can_reload then
      if type0 = .restart then JobType.reloadOrStart
      else if type0 = .tryRestart then JobType.tryReload
      else type0
    else type0
  if type = .stop ∧ (u.load_state = .notFound ∨ u.load_state = .error) ∧
      u.active_state = .inactive then
    .error ⟨.noSuchUnit, "Unit " ++ u.id ++ " not loaded."⟩
  else if (type = .start ∧ u.refuse_manual_start) ∨
      (type = .stop ∧ u.refuse_manual_stop) ∨
      ((type = .restart ∨ type = .tryRestart) ∧
        (u.refuse_manual_start ∨ u.refuse_manual_stop)) ∨
      (type = .reloadOrStart ∧ job_type_collapse type u = .start ∧ u.refuse_manual_start) then
    .error ⟨.onlyByDependency, only_by_dependency_msg u⟩
  else
    .ok type

/-- A concrete unit for exercising the dispatcher: active, reload-capable,
refusing manual start. -/
def c4Unit : UnitJ :=
  { id := "foo.service"
    load_state := .loaded
    active_state := .active
    refuse_manual_start := true
    refuse_manual_stop := false
    can_reload := true }

/-! ## Change / removed signal emitter -/

/-- Events observable on the management bus: unit-created, the two
properties-changed signals (subtype-specific first, then generic), and
unit-removed. -/
inductive BusEvent where
  | unitNew (id : String)
  | propsChangedSub (id : String)
  | propsChangedGeneric (id : String)
  | unitRemoved (id : String)
  deriving DecidableEq, Repr

/-- The signal-relevant slice of unit state: primary name (`none` once unset),
dbus dispatch-queue membership, and the sent-creation-notice flag. -/
structure SignalState where
  id : Option String
  in_dbus_queue : Bool
  sent_dbus_new_signal : Bool
  deriving DecidableEq, Repr

/-- Embedding of `bus_unit_send_change_signal`: drop the unit from the dbus
dispatch queue, emit nothing when the primary name is unset, otherwise emit a
UnitNew signal on first call and the two properties-changed signals afterwards,
then record that the creation notice went out. -/
def bus_unit_send_change_signal (u : SignalState) : SignalState × List BusEvent :=
  let u1 := { u with in_dbus_queue := false }
  match u1.id with
  | none => (u1, [])
  | some i =>
    let evs :=
      if u1.sent_dbus_new_signal then [BusEvent.propsChangedSub i, BusEvent.propsChangedGeneric i]
      else [BusEvent.unitNew i]
    ({ u1 with sent_dbus_new_signal := true }, evs)

/-- Embedding of `bus_unit_send_removed_signal`: first run the change-signal
path when no creation notice was ever sent or one is still pending in the
dispatch queue; then, if the primary name is still set, emit UnitRemoved. -/
def bus_unit_send_removed_signal (u : SignalState) : SignalState × List BusEvent :=
  let p :=
    if ¬ u.sent_dbus_new_signal ∨ u.in_dbus_queue then bus_unit_send_change_signal u
    else (u, [])
  match p.1.id with
  | none => (p.1, p.2)
  | some i => (p.1, p.2 ++ [BusEvent.unitRemoved i])

/-- Operations driving the emitter: an explicit change notification, a removal
notification, enqueueing the unit on the dbus dispatch queue, and unsetting the
primary name (unit identity teardown). -/
inductive NotifyOp where
  | change
  | removed
  | enqueue
  | unsetId
  deriving DecidableEq, Repr

/-- One step of the notification state machine. -/
def stepNotify (u : SignalState) : NotifyOp → SignalState × List BusEvent
  | .change => bus_unit_send_change_signal u
  | .removed => bus_unit_send_removed_signal u
  | .enqueue => ({ u with in_dbus_queue := true }, [])
  | .unsetId => ({ u with id := none }, [])

/-- The event trace produced by a sequence of notification operations. -/
def runNotify (u : SignalState) : List NotifyOp → List BusEvent
  | [] => []
  | op :: ops =>
    let p := stepNotify u op
    p.2 ++ runNotify p.1 ops

/-- An event counts as a change notice when it is anything the change-signal
emitter produces (creation notice or properties-changed), i.e. everything but
a removal. -/
def isNotice : BusEvent → Bool
  | .unitRemoved _ => false
  | _ => true

/-- A trace is ordered when every removal is preceded by a notice; `saw` records
whether a notice was already emitted earlier. -/
def precededOk : Bool → List BusEvent → Bool
  | _, [] => true
  | saw, e :: rest =>
    match e with
    | .unitRemoved _ => saw && precededOk saw rest
    | _ => precededOk true rest

/-! ## Cgroup process walker (append_process, append_cgroup, GetProcesses)

The resource controller is modelled as the tree of enumeration outcomes the
walk would observe: at each group, enumerating-and-reading the member processes
either yields the pid list or fails with a (negative) errno code, and likewise
for the child subgroups.  The C streams (`cg_read_pid` over a FILE, and
`cg_read_subgroup` over a DIR) are folded into the per-group outcome. -/

def ENOENT : Int := 2
def ESRCH : Int := 3

mutual
/-- A cgroup as seen by the walk: the outcome of enumerating its processes and
the outcome of enumerating its subgroups. -/
inductive CgTree where
  | node (procs : Except Int (List Nat)) (subs : CgSubs)

/-- Outcome of `cg_enumerate_subgroups` plus the subsequent reads. -/
inductive CgSubs where
  | fail (r : Int)
  | found (l : CgForest)

/-- The named children of a group, in the order the controller reports them. -/
inductive CgForest where
  | nil
  | cons (name : String) (t : CgTree) (rest : CgForest)
end

/-- External per-process queries used by the walk: the kernel-thread test
(positive means kernel thread), the cgroup-path lookup used for main/control
pids (`cg_pid_get_path`), and the command line (errors of
`get_process_cmdline` are ignored in the C, so it is a total function). -/
structure ProcEnv where
  is_kernel_thread : Nat → Int
  cg_pid_get_path : Nat → Except Int String
  cmdline : Nat → String

/-- One row of the GetProcesses reply: group path, pid, command line. -/
structure ProcEntry where
  group : String
  pid : Nat
  cmdline : String
  deriving DecidableEq, Repr

/-- Embedding of `append_process`: insert the pid into the shared dedup set
(already present means silently skip), resolve the group path via the
controller when none was supplied (a vanished process, -ESRCH, is skipped,
other lookup failures are fatal), then append the reply row. -/
def append_process (env : ProcEnv) (p : Option String) (pid : Nat)
    (reply : List ProcEntry) (pids : List Nat) :
    Except Int (List ProcEntry × List Nat) :=
  if pid ∈ pids then .ok (reply, pids)
  else
    let pids1 := pid :: pids
    match p with
    | some g => .ok (reply ++ [⟨g, pid, env.cmdline pid⟩], pids1)
    | none =>
      match env.cg_pid_get_path pid with
      | .error r => if r = -ESRCH then .ok (reply, pids1) else .error r
      | .ok g => .ok (reply ++ [⟨g, pid, env.cmdline pid⟩], pids1)

/-- The process loop of `append_cgroup`: kernel threads are filtered out,
everything else is appended under the current group path. -/
def appendPids (env : ProcEnv) (p : String) :
    List Nat → List ProcEntry → List Nat → Except Int (List ProcEntry × List Nat)
  | [], reply, pids => .ok (reply, pids)
  | pid :: rest, reply, pids =>
    if env.is_kernel_thread pid > 0 then appendPids env p rest reply pids
    else
      match append_process env (some p) pid reply pids with
      | .error r => .error r
      | .ok (reply1, pids1) => appendPids env p rest reply1 pids1

mutual
/-- Embedding of `append_cgroup`: enumerate the processes of the group (the C
compares the return against positive ENOENT before the fatal `r < 0` check, so
that comparison is reproduced verbatim), append them, then enumerate the
subgroups (here the comparison is against -ENOENT, so a vanished group is
treated as empty) and recurse into each child in order. -/
def append_cgroup (env : ProcEnv) (p : String) (t : CgTree)
    (reply : List ProcEntry) (pids : List Nat) :
    Except Int (List ProcEntry × List Nat) :=
  match t with
  | .node procsR subsR =>
    match procsR with
    | .error r => if r = ENOENT then .ok (reply, pids) else .error r
    | .ok l =>
      match appendPids env p l reply pids with
      | .error r => .error r
      | .ok (reply1, pids1) =>
        match subsR with
        | .fail r => if r = -ENOENT then .ok (reply1, pids1) else .error r
        | .found children => walkSubgroups env p children reply1 pids1

/-- The subgroup loop of `append_cgroup`: each child is walked under the joined
path `p ++ "/" ++ g`, threading the reply and the dedup set. -/
def walkSubgroups (env : ProcEnv) (p : String) (l : CgForest)
    (reply : List ProcEntry) (pids : List Nat) :
    Except Int (List ProcEntry × List Nat) :=
  match l with
  | .nil => .ok (reply, pids)
  | .cons g t rest =>
    match append_cgroup env (p ++ "/" ++ g) t reply pids with
    | .error r => .error r
    | .ok (reply1, pids1) => walkSubgroups env p rest reply1 pids1
end

/-- The slice of unit state read by GetProcesses: the optional cgroup path and
the recorded main and control pids (0 meaning none, as with `unit_main_pid`
returning a nonpositive value). -/
structure UnitCg where
  cgroup_path : Option String
  main_pid : Nat
  control_pid : Nat
  deriving DecidableEq, Repr

/-- Appending a recorded (main or control) pid when one exists: the C guards
each `append_process` call with `pid > 0`. -/
def appendOptPid (env : ProcEnv) (pid : Nat) (st : List ProcEntry × List Nat) :
    Except Int (List ProcEntry × List Nat) :=
  if pid > 0 then append_process env none pid st.1 st.2 else .ok st

/-- Embedding of `bus_unit_method_get_processes`: walk the cgroup subtree when
the unit has one, then append the recorded main and control pids (fetched
separately since they may live outside the cgroup) through the same dedup set. -/
def bus_unit_method_get_processes (env : ProcEnv) (tree : CgTree) (u : UnitCg) :
    Except Int (List ProcEntry) :=
  match (match u.cgroup_path with
         | some cp => append_cgroup env cp tree [] []
         | none => .ok ([], [])) with
  | .error r => .error r
  | .ok st1 =>
    match appendOptPid env u.main_pid st1 with
    | .error r => .error r
    | .ok st2 =>
      match appendOptPid env u.control_pid st2 with
      | .error r => .error r
      | .ok st3 => .ok st3.1

/-! ## AttachProcesses (bus_unit_method_attach_processes) -/

/-- Character-level prefix test (the library string-prefix routine is opaque to
reduction, so the embedding spells it out). -/
def startsList : List Char → List Char → Bool
  | _, [] => true
  | [], _ :: _ => false
  | c :: cs, d :: ds => c = d && startsList cs ds

/-- Whether `s` starts with `pre`. -/
def str_starts (s p : String) : Bool := startsList s.toList p.toList

/-- `path_is_absolute` from path-util: the path begins with a slash. -/
def path_is_absolute (p : String) : Bool :=
  match p.toList with
  | '/' :: _ => true
  | _ => false

/-- Split a character list at every slash. -/
def splitSlash : List Char → List (List Char)
  | [] => [[]]
  | '/' :: rest => [] :: splitSlash rest
  | c :: rest =>
    match splitSlash rest with
    | [] => [[c]]
    | g :: gs => (c :: g) :: gs

/-- Modelled from the spec: the path normalization check (`path_is_normalized`,
external to this file); the spec requires the target subpath to be "an
absolute, normalized path segment", so no dot or dot-dot components and no
empty component from a doubled or trailing slash. -/
def path_is_normalized (p : String) : Bool :=
  let comps := (splitSlash p.toList).drop 1
  p = "/" ∨ (comps.all fun c => c ≠ [] ∧ c ≠ ['.'] ∧ c ≠ ['.', '.'])

/-- The slice of unit state read by AttachProcesses: the delegation capability
(`unit_cgroup_delegate`), the active state, and the reference user id. -/
structure UnitA where
  delegate : Bool
  active_state : UnitActiveState
  ref_uid : Nat
  deriving DecidableEq, Repr

/-- External collaborators of AttachProcesses: the manager's own uid
(`getuid`), the sender credentials (effective uid and pid, from
`sd_bus_query_sender_creds`), the per-pid suitability check
(`unit_pid_attachable`, `none` meaning attachable), the process-owner lookup
(`get_process_uid`), and the single migration call to the resource controller
(`unit_attach_pids_to_cgroup`). -/
structure AttachSys where
  getuid : Nat
  sender_euid : Nat
  sender_pid : Nat
  pid_attachable : Nat → Option BusError
  process_uid : Nat → Except Int Nat
  migrate : List Nat → Except Int Unit

/-- The access-denied message naming a pid whose owner differs from the
calling client. -/
def attach_client_msg (pid : Nat) : String :=
  "Process " ++ toString pid ++ " not owned by client UID. Refusing."

/-- The access-denied message naming a pid whose owner differs from the target
unit reference uid. -/
def attach_unit_msg (pid : Nat) : String :=
  "Process " ++ toString pid ++ " not owned by target unit UID. Refusing."

/-- A requested pid resolved: the reserved value 0 names the calling peer's
own process. -/
def resolve_pid (sys : AttachSys) (upid : Nat) : Nat :=
  if upid = 0 then sys.sender_pid else upid

/-- The pid loop of `bus_unit_method_attach_processes`: resolve each requested
pid, skip duplicates already collected, check attachability, then (for a
sender that is neither root nor the manager's own uid) check that the process
owner equals both the sender's effective uid and the unit's reference uid;
pids surviving every check are collected for the single migration call. -/
def attachLoop (sys : AttachSys) (u : UnitA) :
    List Nat → List Nat → Except BusError (List Nat)
  | [], pids => .ok pids
  | upid :: rest, pids =>
    let pid := resolve_pid sys upid
    if pid ∈ pids then attachLoop sys u rest pids
    else
      match sys.pid_attachable pid with
      | some e => .error e
      | none =>
        let own : Option BusError :=
          if sys.sender_euid ≠ 0 ∧ sys.sender_euid ≠ sys.getuid then
            match sys.process_uid pid with
            | .error r => some ⟨.errno r, "Failed to retrieve process UID"⟩
            | .ok w =>
              if w ≠ sys.sender_euid then some ⟨.accessDenied, attach_client_msg pid⟩
              else if w ≠ u.ref_uid then some ⟨.accessDenied, attach_unit_msg pid⟩
              else none
          else none
        match own with
        | some e => .error e
        | none => attachLoop sys u rest (pids ++ [pid])

/-- Embedding of `bus_unit_method_attach_processes`.  The result pairs the bus
reply with the list of migration calls issued to the resource controller: the
C invokes `unit_attach_pids_to_cgroup` exactly once, after the whole pid loop
has succeeded.  All four guard failures ahead of the loop use the
InvalidArgument error class. -/
def bus_unit_method_attach_processes (sys : AttachSys) (u : UnitA)
    (path0 : String) (upids : List Nat) :
    Except BusError Unit × List (List Nat) :=
  if path0 ≠ "" ∧ ¬ path_is_absolute path0 then
    (.error ⟨.invalidArgs, "Control group path is not absolute: " ++ path0⟩, [])
  else if path0 ≠ "" ∧ ¬ path_is_normalized path0 then
    (.error ⟨.invalidArgs, "Control group path is not normalized: " ++ path0⟩, [])
  else if ¬ u.delegate then
    (.error ⟨.invalidArgs, "Process migration not available on non-delegated units."⟩, [])
  else if UNIT_IS_INACTIVE_OR_FAILED u.active_state then
    (.error ⟨.invalidArgs, "Unit is not active, refusing."⟩, [])
  else
    match attachLoop sys u upids [] with
    | .error e => (.error e, [])
    | .ok pids =>
      match sys.migrate pids with
      | .error r => (.error ⟨.errno r, "Failed to attach processes to control group"⟩, [pids])
      | .ok _ => (.ok (), [pids])

/-! ## Property transaction engine (bus_unit_set_properties)

Mutation of the unit in place becomes explicit threading of an `SdUnit` value;
every handler returns the (possibly updated) unit together with its C return
code (`Except` error for r < 0, boolean "handled" for r = 1 versus r = 0).
The typed variant payload of each (name, variant) entry becomes a `Value`. -/

/-- The UnitWriteFlags bits branched on in this file: UNIT_RUNTIME and
UNIT_PERSISTENT (the two bits masked out during the validation pass). -/
structure UnitWriteFlags where
  runtime : Bool
  persistent : Bool
  deriving DecidableEq, Repr

/-- UNIT_WRITE_FLAGS_NOOP: neither target bit is set, so handlers validate
without mutating. -/
def UNIT_WRITE_FLAGS_NOOP (f : UnitWriteFlags) : Bool := !f.runtime && !f.persistent

/-- The flag value used during the validation pass (all target bits cleared). -/
def maskedFlags : UnitWriteFlags := ⟨false, false⟩

/-- Variant payloads carried by property entries: string, boolean, string
array, or the condition-tuple array of signature a(sbbs). -/
inductive Value where
  | vs (s : String)
  | vb (b : Bool)
  | vl (l : List String)
  | vconds (l : List (String × Bool × Bool × String))
  deriving DecidableEq, Repr

/-- Modelled from the spec: the condition/assert type table
(`condition_type_from_string` and friends live outside this file); the spec
requires a closed set of recognized type names, among them the null type and
path-taking types.  Three representatives are modelled. -/
inductive ConditionType where
  | condNull
  | pathExists
  | virtualization
  deriving DecidableEq, Repr

/-- Modelled from the spec: lookup of a condition type name; unrecognized
names yield none (a hard error in the handler). -/
def condition_type_from_string : String → Option ConditionType
  | "ConditionNull" => some .condNull
  | "ConditionPathExists" => some .pathExists
  | "ConditionVirtualization" => some .virtualization
  | _ => none

/-- Modelled from the spec: lookup of an assert type name. -/
def assert_type_from_string : String → Option ConditionType
  | "AssertNull" => some .condNull
  | "AssertPathExists" => some .pathExists
  | "AssertVirtualization" => some .virtualization
  | _ => none

/-- Modelled from the spec: whether a condition type takes a path parameter
(such parameters must be absolute). -/
def condition_takes_path : ConditionType → Bool
  | .pathExists => true
  | _ => false

/-- A condition list entry (`condition_new`): type, trigger and negate flags,
and the parameter (none for the null type, whose parameter is discarded). -/
structure Condition where
  ctype : ConditionType
  trigger : Bool
  negate : Bool
  parameter : Option String
  deriving DecidableEq, Repr

/-- The read loop of `bus_set_transient_conditions`: validate each
(type-name, trigger, negate, parameter) tuple and, when mutation is enabled,
prepend the new condition to the list (LIST_PREPEND), threading the list so
entries already prepended survive a later tuple's failure. -/
def condsLoop (is_condition : Bool) (flags : UnitWriteFlags) :
    List (String × Bool × Bool × String) → List Condition →
    List Condition × Option BusError
  | [], list => (list, none)
  | (type_name, trigger, negate, param) :: rest, list =>
    match (if is_condition then condition_type_from_string type_name
           else assert_type_from_string type_name) with
    | none => (list, some ⟨.invalidArgs, "Invalid condition type: " ++ type_name⟩)
    | some t =>
      if t ≠ .condNull ∧ param = "" then
        (list, some ⟨.invalidArgs, "Condition parameter in " ++ type_name ++ " is empty"⟩)
      else if t ≠ .condNull ∧ condition_takes_path t ∧ ¬ path_is_absolute param then
        (list, some ⟨.invalidArgs,
          "Path in condition " ++ type_name ++ " is not absolute: " ++ param⟩)
      else
        let pparam : Option String := if t = .condNull then none else some param
        let list1 := if UNIT_WRITE_FLAGS_NOOP flags then list
                     else Condition.mk t trigger negate pparam :: list
        condsLoop is_condition flags rest list1

/-- Embedding of `bus_set_transient_conditions`: run the read loop over the
supplied tuples against the existing list, then, when mutation is enabled and
the supplied array was empty, free the whole list (clear to empty). -/
def bus_set_transient_conditions (list : List Condition) (is_condition : Bool)
    (items : List (String × Bool × Bool × String)) (flags : UnitWriteFlags) :
    List Condition × Option BusError :=
  match condsLoop is_condition flags items list with
  | (list1, some e) => (list1, some e)
  | (list1, none) =>
    if ¬ UNIT_WRITE_FLAGS_NOOP flags ∧ items = [] then ([], none)
    else (list1, none)

/-- Modelled from the spec: dependency kinds (the full `unit_dependency_from_string`
table lives outside this file); a representative subset. -/
inductive UnitDependencyKind where
  | requiresDep
  | requisite
  | wants
  | after
  | before
  deriving DecidableEq, Repr

/-- Modelled from the spec: dependency-kind name lookup. -/
def unit_dependency_from_string : String → Option UnitDependencyKind
  | "Requires" => some .requiresDep
  | "Requisite" => some .requisite
  | "Wants" => some .wants
  | "After" => some .after
  | "Before" => some .before
  | _ => none

/-- Modelled from the spec: unit-name validity for the plain-or-instance
grammar (`unit_name_is_valid`, external): nonempty, slash-free, with a type
suffix after a dot that does not start the name. -/
def unit_name_is_valid (s : String) : Bool :=
  s ≠ "" && !(s.toList.contains '/') && s.toList.contains '.' && !(str_starts s ".")

/-- Modelled from the spec: documentation URL validity
(`documentation_url_is_valid`, external): one of the recognized URL schemes. -/
def documentation_url_is_valid (s : String) : Bool :=
  str_starts s "http://" || str_starts s "https://" || str_starts s "file:" ||
    str_starts s "info:" || str_starts s "man:"

/-- The slice of unit state written by the property handlers embedded here.
`deps` records the dependency edges created through
`unit_add_dependency_by_name`, `requires_mounts_for` the paths registered
through `unit_require_mounts_for`. -/
structure SdUnit where
  id : String
  load_state : UnitLoadState
  transient : Bool
  description : String
  conditions : List Condition
  asserts : List Condition
  documentation : List String
  deps : List (UnitDependencyKind × String)
  requires_mounts_for : List String
  bus_track_add : Bool
  deriving DecidableEq, Repr

/-- Result of one property handler: the threaded unit plus the C return code,
i.e. an error, or a flag telling whether the property name was handled. -/
abbrev HRes := SdUnit × Except BusError Bool

/-- Embedding of `bus_unit_set_live_property`: of the properties settable at
any time, Description is handled here; a payload of the wrong message type is
a read error. -/
def bus_unit_set_live_property (u : SdUnit) (name : String) (v : Value)
    (flags : UnitWriteFlags) : HRes :=
  if name = "Description" then
    match v with
    | .vs d =>
      if UNIT_WRITE_FLAGS_NOOP flags then (u, .ok true)
      else ({ u with description := d }, .ok true)
    | _ => (u, .error ⟨.invalidArgs, "Failed to read message"⟩)
  else (u, .ok false)

/-- The per-name loop of the dependency-array handler: validate every listed
unit name and, when mutation is enabled, create the dependency edge; as in the
C, edges created before a later invalid name survive its failure. -/
def depsLoop (dk : UnitDependencyKind) (flags : UnitWriteFlags) :
    List String → SdUnit → SdUnit × Option BusError
  | [], u => (u, none)
  | other :: rest, u =>
    if unit_name_is_valid other then
      let u1 := if UNIT_WRITE_FLAGS_NOOP flags then u
                else { u with deps := u.deps ++ [(dk, other)] }
      depsLoop dk flags rest u1
    else (u, some ⟨.invalidArgs, "Invalid unit name " ++ other⟩)

/-- The per-path loop of the RequiresMountsFor handler. -/
def mountsLoop (flags : UnitWriteFlags) :
    List String → SdUnit → SdUnit × Option BusError
  | [], u => (u, none)
  | p :: rest, u =>
    if path_is_absolute p then
      let u1 := if UNIT_WRITE_FLAGS_NOOP flags then u
                else { u with requires_mounts_for := u.requires_mounts_for ++ [p] }
      mountsLoop flags rest u1
    else (u, some ⟨.invalidArgs, "Path specified in RequiresMountsFor is not absolute: " ++ p⟩)

/-- Embedding of `bus_unit_set_transient_property`, covering the handlers
whose validation logic is local to this file: Conditions, Asserts,
Documentation, RequiresMountsFor, the dependency arrays (with the two
obsolete-name redirects), and AddRef.  Handlers that merely delegate to the
generic scalar helpers of dbus-util are outside this model, so their names
fall through as unhandled. -/
def bus_unit_set_transient_property (u : SdUnit) (name : String) (v : Value)
    (flags : UnitWriteFlags) : HRes :=
  if name = "Conditions" then
    match v with
    | .vconds items =>
      match bus_set_transient_conditions u.conditions true items flags with
      | (l, some e) => ({ u with conditions := l }, .error e)
      | (l, none) => ({ u with conditions := l }, .ok true)
    | _ => (u, .error ⟨.invalidArgs, "Failed to read message"⟩)
  else if name = "Asserts" then
    match v with
    | .vconds items =>
      match bus_set_transient_conditions u.asserts false items flags with
      | (l, some e) => ({ u with asserts := l }, .error e)
      | (l, none) => ({ u with asserts := l }, .ok true)
    | _ => (u, .error ⟨.invalidArgs, "Failed to read message"⟩)
  else if name = "Documentation" then
    match v with
    | .vl l =>
      match l.find? (fun p => !documentation_url_is_valid p) with
      | some p => (u, .error ⟨.invalidArgs, "Invalid URL in Documentation: " ++ p⟩)
      | none =>
        if UNIT_WRITE_FLAGS_NOOP flags then (u, .ok true)
        else if l = [] then ({ u with documentation := [] }, .ok true)
        else ({ u with documentation := u.documentation ++ l }, .ok true)
    | _ => (u, .error ⟨.invalidArgs, "Failed to read message"⟩)
  else if name = "RequiresMountsFor" then
    match v with
    | .vl l =>
      match mountsLoop flags l u with
      | (u1, some e) => (u1, .error e)
      | (u1, none) => (u1, .ok true)
    | _ => (u, .error ⟨.invalidArgs, "Failed to read message"⟩)
  else
    let d := if name = "RequiresOverridable" then some UnitDependencyKind.requiresDep
             else if name = "RequisiteOverridable" then some UnitDependencyKind.requisite
             else unit_dependency_from_string name
    match d with
    | some dk =>
      match v with
      | .vl others =>
        match depsLoop dk flags others u with
        | (u1, some e) => (u1, .error e)
        | (u1, none) => (u1, .ok true)
      | _ => (u, .error ⟨.invalidArgs, "Failed to read message"⟩)
    | none =>
      if name = "AddRef" then
        match v with
        | .vb b =>
          if UNIT_WRITE_FLAGS_NOOP flags then (u, .ok true)
          else ({ u with bus_track_add := b }, .ok true)
        | _ => (u, .error ⟨.invalidArgs, "Failed to read message"⟩)
      else (u, .ok false)

/-- The unit-subtype property handler reached through the vtable
(`UNIT_VTABLE(u)->bus_set_property`); supplied by the unit's runtime type,
hence a parameter of the engine.  `none` models a vtable without the
callback. -/
def SubtypeHandler := SdUnit → String → Value → UnitWriteFlags → HRes

/-- The handler chain of one `bus_unit_set_properties` entry once the vtable
callback is known: subtype handler first, then the transient-only handlers
(reachable only for a transient unit still in the stub load state), then the
live handlers; an everywhere-unhandled name becomes the PropertyReadOnly
"unknown property" failure. -/
def applyOnePropertyCore (bsp : SubtypeHandler) (u : SdUnit) (name : String)
    (v : Value) (f : UnitWriteFlags) : SdUnit × Option BusError :=
  match bsp u name v f with
  | (u1, .error e) => (u1, some e)
  | (u1, .ok true) => (u1, none)
  | (u1, .ok false) =>
    match (if u1.transient ∧ u1.load_state = .stub
           then bus_unit_set_transient_property u1 name v f
           else (u1, .ok false)) with
    | (u2, .error e) => (u2, some e)
    | (u2, .ok true) => (u2, none)
    | (u2, .ok false) =>
      match bus_unit_set_live_property u2 name v f with
      | (u3, .error e) => (u3, some e)
      | (u3, .ok true) => (u3, none)
      | (u3, .ok false) =>
        (u3, some ⟨.propertyReadOnly, "Cannot set property " ++ name ++ ", or unknown property."⟩)

/-- One entry of the `bus_unit_set_properties` loop: a unit type whose vtable
lacks the bus_set_property callback rejects every entry as read-only,
otherwise the three-handler chain resolves the name. -/
def applyOneProperty (h : Option SubtypeHandler) (u : SdUnit) (name : String)
    (v : Value) (f : UnitWriteFlags) : SdUnit × Option BusError :=
  match h with
  | none => (u, some ⟨.propertyReadOnly, "Objects of this type do not support setting properties."⟩)
  | some bsp => applyOnePropertyCore bsp u name v f

/-- One pass over the entry stream, aborting at the first failing entry. -/
def setPropsPass (h : Option SubtypeHandler) (f : UnitWriteFlags) :
    List (String × Value) → SdUnit → SdUnit × Option BusError
  | [], u => (u, none)
  | (name, v) :: rest, u =>
    match applyOneProperty h u name v f with
    | (u1, some e) => (u1, some e)
    | (u1, none) => setPropsPass h f rest u1

/-- Embedding of `bus_unit_set_properties`: the first pass runs every handler
with the RUNTIME and PERSISTENT bits masked out (validation only); when the
supplied flags are already no-op the loop ends there with a count of 0,
otherwise the stream is rewound and replayed with mutation enabled, counting
the applied entries.  The external `bus_commit_properties` callback invoked
after a successful commit is not modelled. -/
def bus_unit_set_properties (h : Option SubtypeHandler) (u : SdUnit)
    (props : List (String × Value)) (flags : UnitWriteFlags) (_commit : Bool) :
    SdUnit × Except BusError Nat :=
  match setPropsPass h maskedFlags props u with
  | (u1, some e) => (u1, .error e)
  | (u1, none) =>
    if UNIT_WRITE_FLAGS_NOOP flags then (u1, .ok 0)
    else
      match setPropsPass h flags props u1 with
      | (u2, some e) => (u2, .error e)
      | (u2, none) => (u2, .ok props.length)

/-! ## Derived predicates used in theorem statements -/

/-- An entry of a Conditions/Asserts array passes validation: recognized type
name, nonempty parameter for non-null types, absolute path for path-taking
types. -/
def cond_item_valid (is_condition : Bool) : String × Bool × Bool × String → Bool
  | (tn, _, _, pa) =>
    match (if is_condition then condition_type_from_string tn
           else assert_type_from_string tn) with
    | none => false
    | some t =>
      if t = .condNull then true
      else pa ≠ "" && (!condition_takes_path t || path_is_absolute pa)

/-- The condition a valid tuple builds (`condition_new` with the parameter
dropped for the null type). -/
def cond_of_item (is_condition : Bool) : String × Bool × Bool × String → Condition
  | (tn, tr, ng, pa) =>
    match (if is_condition then condition_type_from_string tn
           else assert_type_from_string tn) with
    | some t => ⟨t, tr, ng, if t = .condNull then none else some pa⟩
    | none => ⟨.condNull, tr, ng, none⟩

/-- A resolved pid passes the ownership check of the attach loop: its owner is
known and equals both the sender uid and the unit reference uid. -/
def attach_uid_ok (sys : AttachSys) (u : UnitA) (q : Nat) : Bool :=
  match sys.process_uid q with
  | .ok w => if w = sys.sender_euid ∧ w = u.ref_uid then true else false
  | .error _ => false

/-! ## Concrete instances used in counterexamples and witnesses -/

/-- The dispatcher unit of the C4 witness: inactive, reload-capable, refusing
manual start. -/
def c4UnitInactive : UnitJ :=
  { id := "bar.service"
    load_state := .loaded
    active_state := .inactive
    refuse_manual_start := true
    refuse_manual_stop := false
    can_reload := true }

/-- A walk environment whose per-process queries are inert. -/
def c5Env : ProcEnv :=
  { is_kernel_thread := fun _ => 0
    cg_pid_get_path := fun _ => .error (-ESRCH)
    cmdline := fun _ => "" }

/-- A group whose process enumeration reports the group missing (-ENOENT). -/
def c5ProcsGone : CgTree := .node (.error (-ENOENT)) (.found .nil)

/-- A group whose subgroup enumeration reports the group missing (-ENOENT). -/
def c5SubsGone : CgTree := .node (.ok []) (.fail (-ENOENT))

/-- A parent group with one child that vanished between the subgroup listing
and the recursive visit. -/
def c5Parent : CgTree := .node (.ok []) (.found (.cons "child" c5ProcsGone .nil))

/-- A walk environment for the dedup witness: every pid resolves to group "/g". -/
def c7Env : ProcEnv :=
  { is_kernel_thread := fun _ => 0
    cg_pid_get_path := fun _ => .ok "/g"
    cmdline := fun _ => "cmd" }

/-- A subtree in which pid 5 appears both at the root and in a child group. -/
def c7Tree : CgTree :=
  .node (.ok [5, 6]) (.found (.cons "ch" (.node (.ok [5]) (.found .nil)) .nil))

/-- A unit whose recorded main pid 5 is also reachable through the subtree. -/
def c7UnitCg : UnitCg := ⟨some "/g", 5, 0⟩

/-- Attach environment of the C2 witness: unprivileged sender uid 1000, every
process owned by uid 1000 except pid 42 (owned by 1001). -/
def c2Sys : AttachSys :=
  { getuid := 0
    sender_euid := 1000
    sender_pid := 7
    pid_attachable := fun _ => none
    process_uid := fun q => .ok (if q = 42 then 1001 else 1000)
    migrate := fun _ => .ok () }

/-- A delegated, active unit with reference uid 1000. -/
def c2Unit : UnitA := { delegate := true, active_state := .active, ref_uid := 1000 }

/-- Attach environment of the C6 counterexample (contents irrelevant: the call
fails before consulting it). -/
def c6Sys : AttachSys :=
  { getuid := 0
    sender_euid := 1000
    sender_pid := 7
    pid_attachable := fun _ => none
    process_uid := fun _ => .ok 1000
    migrate := fun _ => .ok () }

/-- A unit that does not support delegated resource-group management. -/
def c6Unit : UnitA := { delegate := false, active_state := .active, ref_uid := 1000 }

/-- A pre-existing condition on the unit before the commit of C3. -/
def c3Prior : Condition := ⟨.virtualization, false, false, some "kvm"⟩

/-- First supplied condition tuple. -/
def c3ItemA : String × Bool × Bool × String := ("ConditionPathExists", false, false, "/a")

/-- Second supplied condition tuple. -/
def c3ItemB : String × Bool × Bool × String := ("ConditionPathExists", false, false, "/b")

/-- The condition built from `c3ItemA`. -/
def c3CondA : Condition := ⟨.pathExists, false, false, some "/a"⟩

/-- The condition built from `c3ItemB`. -/
def c3CondB : Condition := ⟨.pathExists, false, false, some "/b"⟩

/-- Commit-enabled write flags (UNIT_RUNTIME). -/
def runtimeFlags : UnitWriteFlags := ⟨true, false⟩

/-- A subtype handler that handles nothing and never mutates (a unit type
without specific writable properties). -/
def trivialSub : SubtypeHandler := fun u _ _ _ => (u, .ok false)

/-- A transient stub unit, as during transient-unit creation. -/
def c1Unit : SdUnit :=
  { id := "t.service"
    load_state := .stub
    transient := true
    description := ""
    conditions := []
    asserts := []
    documentation := []
    deps := []
    requires_mounts_for := []
    bus_track_add := false }

/-- A batch whose second entry carries an unrecognized condition type. -/
def c1Props : List (String × Value) :=
  [("Description", .vs "demo"), ("Conditions", .vconds [("Bogus", false, false, "x")])]

/-! # Theorems -/

/-- Claim C9: the ControlGroup property preserves the three observably
distinct cgroup-path states exactly — a nil internal path is reported as the
empty string, an empty-string internal path as "/", and any other value
verbatim. -/
theorem controlGroup_tristate :
    property_get_cgroup none = "" ∧
    property_get_cgroup (some "") = "/" ∧
    ∀ s : String, s ≠ "" → property_get_cgroup (some s) = s := by
  refine ⟨rfl, rfl, fun s hs => ?_⟩
  simp [property_get_cgroup, empty_to_root, hs]

/-- Witness for the C9 theorem at the concrete path "/foo". -/
theorem controlGroup_tristate_witness :
    property_get_cgroup (some "/foo") = "/foo" :=
  controlGroup_tristate.2.2 "/foo" (by decide)

/-- Claim C10: reading the Job property of a unit with no outstanding job
returns the pair (0, "/"); with an outstanding job it returns the job's
numeric id and object path, and that reply is never the reserved no-job pair. -/
theorem job_property_reserved_encoding :
    property_get_job none = (0, "/") ∧
    ∀ j : Job, property_get_job (some j) = (j.id, job_dbus_path j) ∧
      (property_get_job (some j)).2 ≠ "/" := by
  refine ⟨rfl, fun j => ⟨rfl, fun h => ?_⟩⟩
  simp only [property_get_job, job_dbus_path] at h
  have h2 : ("/org/freedesktop/systemd1/job/" ++ toString j.id).length = ("/" : String).length :=
    congrArg String.length h
  rw [String.length_append] at h2
  have h30 : ("/org/freedesktop/systemd1/job/" : String).length = 30 := rfl
  have h1 : ("/" : String).length = 1 := rfl
  omega

/-- Counterexample to claim C4: on an active unit that supports reload and
refuses manual start, a restart request with reload_if_possible set is not
rejected with the dependency-only error — the downgrade to reload-or-start
runs before the refuse-manual guard, and the downgraded type collapses to a
reload on an active unit, so the job is accepted. -/
theorem queue_job_guard_order_cex :
    bus_unit_queue_job c4Unit JobType.restart JobMode.replace true =
      .ok JobType.reloadOrStart := rfl

/-- Claim C4 as amended: the reload_if_possible downgrade is applied before
the refuse-manual guard, which then examines the downgraded type; for a unit
with refuse-manual-start that supports reload, a restart request with
reload_if_possible is rejected with the dependency-only error exactly when the
downgraded reload-or-start job collapses to a start (unit not active or
reloading); otherwise it is accepted as a reload-or-start job. -/
theorem queue_job_downgrade_before_refuse (u : UnitJ) (mode : JobMode)
    (hstart : u.refuse_manual_start = true) (hreload : u.can_reload = true) :
    bus_unit_queue_job u JobType.restart mode true =
      (if UNIT_IS_ACTIVE_OR_RELOADING u.active_state then Except.ok JobType.reloadOrStart
       else Except.error ⟨.onlyByDependency, only_by_dependency_msg u⟩) := by
  unfold bus_unit_queue_job
  simp only [hreload, hstart, job_type_collapse]
  cases h : UNIT_IS_ACTIVE_OR_RELOADING u.active_state <;> simp [h]

/-- Witness for the C4 amended theorem: on an inactive unit the dependency-only
rejection does fire. -/
theorem queue_job_downgrade_before_refuse_witness :
    bus_unit_queue_job c4UnitInactive JobType.restart JobMode.replace true =
      Except.error ⟨.onlyByDependency, only_by_dependency_msg c4UnitInactive⟩ := by
  have h := queue_job_downgrade_before_refuse c4UnitInactive JobMode.replace rfl rfl
  simpa using h

/-- Claim C5 (code bug): `append_cgroup` compares the return of the process
enumeration against positive ENOENT, a value a negative-errno API never
returns, so a group vanishing before its process enumeration (-ENOENT) aborts
the whole walk instead of being treated as empty — while the structurally
identical subgroup-enumeration check below it correctly compares against
-ENOENT and continues.  The whole GetProcesses listing therefore fails on the
first tree. -/
theorem missing_subtree_asymmetry :
    append_cgroup c5Env "/system.slice/a.service" c5Parent [] [] = .error (-ENOENT) ∧
    append_cgroup c5Env "/system.slice/a.service" c5SubsGone [] [] = .ok ([], []) ∧
    bus_unit_method_get_processes c5Env c5Parent ⟨some "/system.slice/a.service", 0, 0⟩ =
      .error (-ENOENT) :=
  ⟨rfl, rfl, rfl⟩

/-- Counterexample to claim C6: attaching to a unit without delegated
resource-group management fails with the InvalidArgument error class, not
ResourceUnavailable. -/
theorem attach_errclass_cex :
    (bus_unit_method_attach_processes c6Sys c6Unit "" [42]).1 =
      .error ⟨.invalidArgs, "Process migration not available on non-delegated units."⟩ ∧
    ErrClass.invalidArgs ≠ ErrClass.resourceUnavailable :=
  ⟨rfl, by decide⟩

/-- Claim C6 as amended: for a unit without delegation or in an inactive or
failed state, AttachProcesses fails before any enumeration of the supplied
PIDs — the reply is an InvalidArgument-class error, no migration call is
issued, and the result does not depend on the supplied pid list at all. -/
theorem attach_guards_before_enumeration (sys : AttachSys) (u : UnitA)
    (path0 : String) (upids : List Nat)
    (hg : u.delegate = false ∨ UNIT_IS_INACTIVE_OR_FAILED u.active_state = true) :
    (∃ m, (bus_unit_method_attach_processes sys u path0 upids).1 =
      .error ⟨.invalidArgs, m⟩) ∧
    (bus_unit_method_attach_processes sys u path0 upids).2 = [] ∧
    ∀ upids', bus_unit_method_attach_processes sys u path0 upids =
      bus_unit_method_attach_processes sys u path0 upids' := by
  have main : ∀ m : String,
      (∀ ups, bus_unit_method_attach_processes sys u path0 ups =
        (.error ⟨.invalidArgs, m⟩, [])) →
      (∃ m2, (bus_unit_method_attach_processes sys u path0 upids).1 =
        .error ⟨.invalidArgs, m2⟩) ∧
      (bus_unit_method_attach_processes sys u path0 upids).2 = [] ∧
      ∀ upids', bus_unit_method_attach_processes sys u path0 upids =
        bus_unit_method_attach_processes sys u path0 upids' := by
    intro m hm
    exact ⟨⟨m, by rw [hm upids]⟩, by rw [hm upids],
      fun upids' => by rw [hm upids, hm upids']⟩
  by_cases h1 : path0 ≠ "" ∧ ¬ path_is_absolute path0
  · exact main ("Control group path is not absolute: " ++ path0) fun ups => by
      simp only [bus_unit_method_attach_processes, if_pos h1]
  · by_cases h2 : path0 ≠ "" ∧ ¬ path_is_normalized path0
    · exact main ("Control group path is not normalized: " ++ path0) fun ups => by
        simp only [bus_unit_method_attach_processes, if_neg h1, if_pos h2]
    · by_cases h3 : u.delegate
      · have h4 : UNIT_IS_INACTIVE_OR_FAILED u.active_state = true := by
          rcases hg with hd | hi
          · rw [h3] at hd; cases hd
          · exact hi
        exact main "Unit is not active, refusing." fun ups => by
          simp only [bus_unit_method_attach_processes, if_neg h1, if_neg h2]
          simp [h3, h4]
      · exact main "Process migration not available on non-delegated units." fun ups => by
          simp only [bus_unit_method_attach_processes, if_neg h1, if_neg h2]
          simp [h3]

/-- Witness for the C6 amended theorem on a concrete non-delegated unit. -/
theorem attach_guards_before_enumeration_witness :
    (∃ m, (bus_unit_method_attach_processes c6Sys c6Unit "" [1, 2]).1 =
      .error ⟨.invalidArgs, m⟩) ∧
    (bus_unit_method_attach_processes c6Sys c6Unit "" [1, 2]).2 = [] ∧
    ∀ upids', bus_unit_method_attach_processes c6Sys c6Unit "" [1, 2] =
      bus_unit_method_attach_processes c6Sys c6Unit "" upids' :=
  attach_guards_before_enumeration c6Sys c6Unit "" [1, 2] (Or.inl rfl)

/-- Counterexample to claim C3: committing a non-empty Conditions array does
not discard the previous list — the new condition is prepended in front of the
retained prior entry — and two supplied entries end up exposed in reverse
supply order. -/
theorem conditions_commit_prepends_cex :
    bus_set_transient_conditions [c3Prior] true [c3ItemA] runtimeFlags =
      ([c3CondA, c3Prior], none) ∧
    bus_set_transient_conditions [] true [c3ItemA, c3ItemB] runtimeFlags =
      ([c3CondB, c3CondA], none) ∧
    [c3CondB, c3CondA] ≠ [c3CondA, c3CondB] :=
  ⟨by decide, by decide, by decide⟩

/-- The condition read loop on all-valid input prepends the built conditions
one by one, so the result is the reversed supplied batch in front of the
initial list. -/
theorem condsLoop_valid (is_condition : Bool) (flags : UnitWriteFlags)
    (hf : UNIT_WRITE_FLAGS_NOOP flags = false) :
    ∀ (items : List (String × Bool × Bool × String)) (l : List Condition),
    (∀ it ∈ items, cond_item_valid is_condition it = true) →
    condsLoop is_condition flags items l =
      ((items.map (cond_of_item is_condition)).reverse ++ l, none) := by
  intro items
  induction items with
  | nil => intro l _; simp [condsLoop]
  | cons it rest ih =>
    intro l hv
    obtain ⟨tn, tr, ng, pa⟩ := it
    have hvh := hv _ (List.mem_cons_self _ _)
    have hvr : ∀ x ∈ rest, cond_item_valid is_condition x = true :=
      fun x hx => hv x (List.mem_cons_of_mem _ hx)
    unfold condsLoop
    split
    next hty =>
      exfalso
      simp [cond_item_valid, hty] at hvh
    next t hty =>
      simp only [cond_item_valid, hty] at hvh
      by_cases hnull : t = ConditionType.condNull
      · subst hnull
        rw [if_neg (by simp), if_neg (by simp), hf]
        simp only [Bool.false_eq_true, if_false]
        rw [ih _ hvr]
        simp [cond_of_item, hty]
      · rw [if_neg hnull] at hvh
        have hpa : ¬ pa = "" := by
          intro hcon
          rw [hcon] at hvh
          simp at hvh
        have habs : ¬ (condition_takes_path t = true ∧ ¬ path_is_absolute pa = true) := by
          rintro ⟨hc, hcabs⟩
          rw [hc] at hvh
          simp [hpa] at hvh
          exact hcabs hvh
        rw [if_neg (fun hcc => hpa hcc.2), if_neg (fun hcc => habs hcc.2), hf]
        simp only [Bool.false_eq_true, if_false, if_neg hnull]
        rw [ih _ hvr]
        simp [cond_of_item, hty, hnull]

/-- Claim C3 as amended: on commit, each supplied condition tuple is prepended
to the front of the existing list in read order, so the exposed list is the
supplied entries in reverse order followed by the previous entries, which are
retained; an explicitly empty input array clears the list to empty. -/
theorem conditions_commit_replace (l : List Condition) (is_condition : Bool)
    (items : List (String × Bool × Bool × String)) (flags : UnitWriteFlags)
    (hf : UNIT_WRITE_FLAGS_NOOP flags = false)
    (hv : ∀ it ∈ items, cond_item_valid is_condition it = true) :
    bus_set_transient_conditions l is_condition items flags =
      ((if items = [] then [] else (items.map (cond_of_item is_condition)).reverse ++ l),
        none) := by
  unfold bus_set_transient_conditions
  rw [condsLoop_valid is_condition flags hf items l hv]
  by_cases hit : items = []
  · simp [hit, hf]
  · simp [hit, hf]

/-- Witness for the C3 amended theorem: an explicitly empty array clears a
previously non-empty list. -/
theorem conditions_commit_replace_witness :
    bus_set_transient_conditions [c3Prior] true [] runtimeFlags = ([], none) := by
  have h := conditions_commit_replace [c3Prior] true [] runtimeFlags rfl
    (fun it hit => absurd hit (List.not_mem_nil it))
  simpa using h

/-- Splitting an ordered-trace check at an append: the suffix is checked with
the notice flag accumulated over the prefix. -/
theorem precededOk_append (saw : Bool) (xs ys : List BusEvent) :
    precededOk saw (xs ++ ys) =
      (precededOk saw xs && precededOk (saw || xs.any isNotice) ys) := by
  induction xs generalizing saw with
  | nil => simp [precededOk]
  | cons e rest ih =>
    cases e with
    | unitRemoved i =>
      show (saw && precededOk saw (rest ++ ys)) =
        ((saw && precededOk saw rest) && precededOk (saw || (false || rest.any isNotice)) ys)
      rw [ih saw]
      cases saw <;> simp
    | unitNew i =>
      show precededOk true (rest ++ ys) =
        (precededOk true rest && precededOk (saw || (true || rest.any isNotice)) ys)
      rw [ih true]
      simp
    | propsChangedSub i =>
      show precededOk true (rest ++ ys) =
        (precededOk true rest && precededOk (saw || (true || rest.any isNotice)) ys)
      rw [ih true]
      simp
    | propsChangedGeneric i =>
      show precededOk true (rest ++ ys) =
        (precededOk true rest && precededOk (saw || (true || rest.any isNotice)) ys)
      rw [ih true]
      simp

/-- Every trace of the notification state machine keeps removals preceded by
notices, as long as the accumulated notice flag covers the sent-creation-notice
flag of the state. -/
theorem runNotify_preceded (ops : List NotifyOp) :
    ∀ (u : SignalState) (saw : Bool),
    (u.sent_dbus_new_signal = true → saw = true) →
    precededOk saw (runNotify u ops) = true := by
  induction ops with
  | nil => intro u saw _; simp [runNotify, precededOk]
  | cons op rest ih =>
    intro u saw hsaw
    show precededOk saw ((stepNotify u op).2 ++ runNotify (stepNotify u op).1 rest) = true
    rw [precededOk_append]
    cases op with
    | enqueue =>
      simp only [stepNotify, List.any_nil, Bool.or_false]
      exact ih _ saw hsaw
    | unsetId =>
      simp only [stepNotify, List.any_nil, Bool.or_false]
      exact ih _ saw hsaw
    | change =>
      simp only [stepNotify, bus_unit_send_change_signal]
      cases hid : u.id with
      | none =>
        simp only [List.any_nil, Bool.or_false, precededOk, Bool.true_and]
        exact ih _ saw hsaw
      | some i =>
        cases hsent : u.sent_dbus_new_signal <;>
          simp [precededOk, isNotice, ih _ true (fun _ => rfl)]
    | removed =>
      simp only [stepNotify, bus_unit_send_removed_signal]
      by_cases hcond : ¬ u.sent_dbus_new_signal = true ∨ u.in_dbus_queue = true
      · rw [if_pos hcond]
        simp only [bus_unit_send_change_signal]
        cases hid : u.id with
        | none =>
          simp only [List.any_nil, Bool.or_false, precededOk, Bool.true_and]
          exact ih _ saw hsaw
        | some i =>
          cases hsent : u.sent_dbus_new_signal <;>
            simp [precededOk, isNotice, ih _ true (fun _ => rfl)]
      · rw [if_neg hcond]
        push_neg at hcond
        have hsawt : saw = true := hsaw hcond.1
        subst hsawt
        cases hid : u.id with
        | none =>
          simp only [List.any_nil, Bool.or_false, precededOk, Bool.true_and]
          exact ih _ true (fun _ => rfl)
        | some i =>
          simp [precededOk, isNotice, ih _ true (fun _ => rfl)]

/-- Extracting a witness notice: if an ordered trace contains a removal, then
either the flag was set on entry or some earlier event of the trace is a
notice. -/
theorem precededOk_extract (pre suf : List BusEvent) (i : String) (saw : Bool)
    (h : precededOk saw (pre ++ BusEvent.unitRemoved i :: suf) = true) :
    saw = true ∨ ∃ e ∈ pre, isNotice e = true := by
  induction pre generalizing saw with
  | nil =>
    left
    simp only [List.nil_append, precededOk, Bool.and_eq_true] at h
    exact h.1
  | cons e rest ih =>
    cases e with
    | unitRemoved j =>
      simp only [List.cons_append, precededOk, Bool.and_eq_true] at h
      exact Or.inl h.1
    | unitNew j =>
      exact Or.inr ⟨BusEvent.unitNew j, List.mem_cons_self _ _, rfl⟩
    | propsChangedSub j =>
      exact Or.inr ⟨BusEvent.propsChangedSub j, List.mem_cons_self _ _, rfl⟩
    | propsChangedGeneric j =>
      exact Or.inr ⟨BusEvent.propsChangedGeneric j, List.mem_cons_self _ _, rfl⟩

/-- Claim C8: in every notification sequence of a unit starting from a fresh
state (no creation notice sent yet), a removed notification is never observed
without a preceding change-signal notice somewhere earlier in the trace; and
once the primary name is unset, neither the change-signal nor the
removed-signal path emits anything at all. -/
theorem removed_preceded_by_notice (u0 : SignalState) (ops : List NotifyOp)
    (h0 : u0.sent_dbus_new_signal = false) :
    (∀ pre i suf, runNotify u0 ops = pre ++ BusEvent.unitRemoved i :: suf →
        ∃ e ∈ pre, isNotice e = true) ∧
    (∀ v : SignalState, v.id = none →
        (bus_unit_send_change_signal v).2 = [] ∧
        (bus_unit_send_removed_signal v).2 = []) := by
  constructor
  · intro pre i suf heq
    have hp : precededOk false (runNotify u0 ops) = true :=
      runNotify_preceded ops u0 false (fun hc => by rw [h0] at hc; cases hc)
    rw [heq] at hp
    rcases precededOk_extract pre suf i false hp with h | h
    · cases h
    · exact h
  · intro v hv
    constructor
    · simp [bus_unit_send_change_signal, hv]
    · by_cases hcond : v.sent_dbus_new_signal = false ∨ v.in_dbus_queue = true
      · simp [bus_unit_send_removed_signal, bus_unit_send_change_signal, hcond, hv]
      · simp [bus_unit_send_removed_signal, bus_unit_send_change_signal, hcond, hv]

/-- Witness for the C8 theorem: the trace of a fresh unit receiving a change
then a removal is [UnitNew, UnitRemoved], and the removal is indeed preceded
by the creation notice. -/
theorem removed_preceded_by_notice_witness :
    ∃ e ∈ [BusEvent.unitNew "a.service"], isNotice e = true :=
  (removed_preceded_by_notice ⟨some "a.service", false, false⟩
      [NotifyOp.change, NotifyOp.removed] rfl).1
    [BusEvent.unitNew "a.service"] "a.service" [] rfl

/-- With the target flags masked out, the condition read loop leaves the list
untouched, whether or not a tuple fails validation. -/
theorem condsLoop_noop (is_condition : Bool) :
    ∀ (items : List (String × Bool × Bool × String)) (l : List Condition),
    (condsLoop is_condition maskedFlags items l).1 = l := by
  intro items
  induction items with
  | nil => intro l; rfl
  | cons it rest ih =>
    intro l
    obtain ⟨tn, tr, ng, pa⟩ := it
    unfold condsLoop
    split
    · rfl
    next t hty =>
      by_cases h1 : t ≠ ConditionType.condNull ∧ pa = ""
      · rw [if_pos h1]
      · by_cases h2 : t ≠ ConditionType.condNull ∧ condition_takes_path t = true ∧
            ¬ path_is_absolute pa = true
        · rw [if_neg h1, if_pos h2]
        · rw [if_neg h1, if_neg h2]
          exact ih l

/-- With the target flags masked out, `bus_set_transient_conditions` never
mutates the condition list. -/
theorem bus_set_transient_conditions_noop (list : List Condition)
    (is_condition : Bool) (items : List (String × Bool × Bool × String)) :
    (bus_set_transient_conditions list is_condition items maskedFlags).1 = list := by
  unfold bus_set_transient_conditions
  rcases hc : condsLoop is_condition maskedFlags items list with ⟨l1, r1⟩
  have hl1 : l1 = list := by
    have := condsLoop_noop is_condition items list
    rw [hc] at this
    exact this
  cases r1 with
  | some e => exact hl1
  | none =>
    dsimp only
    rw [if_neg (fun hcc => hcc.1 rfl)]
    exact hl1

/-- With the target flags masked out, the dependency loop leaves the unit
untouched. -/
theorem depsLoop_noop (dk : UnitDependencyKind) :
    ∀ (others : List String) (u : SdUnit), (depsLoop dk maskedFlags others u).1 = u := by
  intro others
  induction others with
  | nil => intro u; rfl
  | cons o rest ih =>
    intro u
    unfold depsLoop
    by_cases hval : unit_name_is_valid o = true
    · rw [if_pos hval]; exact ih u
    · rw [if_neg hval]

/-- With the target flags masked out, the mounts loop leaves the unit
untouched. -/
theorem mountsLoop_noop :
    ∀ (l : List String) (u : SdUnit), (mountsLoop maskedFlags l u).1 = u := by
  intro l
  induction l with
  | nil => intro u; rfl
  | cons p rest ih =>
    intro u
    unfold mountsLoop
    by_cases hval : path_is_absolute p = true
    · rw [if_pos hval]; exact ih u
    · rw [if_neg hval]

/-- With the target flags masked out, the live-property handler only
validates. -/
theorem live_prop_noop (u : SdUnit) (name : String) (v : Value) :
    (bus_unit_set_live_property u name v maskedFlags).1 = u := by
  unfold bus_unit_set_live_property
  by_cases hn : name = "Description"
  · rw [if_pos hn]; cases v <;> rfl
  · rw [if_neg hn]

/-- With the target flags masked out, the transient-property handler only
validates. -/
theorem transient_prop_noop (u : SdUnit) (name : String) (v : Value) :
    (bus_unit_set_transient_property u name v maskedFlags).1 = u := by
  unfold bus_unit_set_transient_property
  by_cases h1 : name = "Conditions"
  · rw [if_pos h1]
    cases v <;> try rfl
    next items =>
      dsimp only
      rcases hc : bus_set_transient_conditions u.conditions true items maskedFlags with ⟨l, r⟩
      have hl : l = u.conditions := by
        have := bus_set_transient_conditions_noop u.conditions true items
        rw [hc] at this
        exact this
      cases r <;> (subst hl; rfl)
  · rw [if_neg h1]
    by_cases h2 : name = "Asserts"
    · rw [if_pos h2]
      cases v <;> try rfl
      next items =>
        dsimp only
        rcases hc : bus_set_transient_conditions u.asserts false items maskedFlags with ⟨l, r⟩
        have hl : l = u.asserts := by
          have := bus_set_transient_conditions_noop u.asserts false items
          rw [hc] at this
          exact this
        cases r <;> (subst hl; rfl)
    · rw [if_neg h2]
      by_cases h3 : name = "Documentation"
      · rw [if_pos h3]
        cases v <;> try rfl
        next l =>
          dsimp only
          cases hf : l.find? (fun p => !documentation_url_is_valid p) <;> rfl
      · rw [if_neg h3]
        by_cases h4 : name = "RequiresMountsFor"
        · rw [if_pos h4]
          cases v <;> try rfl
          next l =>
            dsimp only
            rcases hm : mountsLoop maskedFlags l u with ⟨u1, r⟩
            have hu1 : u1 = u := by
              have := mountsLoop_noop l u
              rw [hm] at this
              exact this
            cases r <;> (subst hu1; rfl)
        · rw [if_neg h4]
          rcases hd : (if name = "RequiresOverridable" then some UnitDependencyKind.requiresDep
            else if name = "RequisiteOverridable" then some UnitDependencyKind.requisite
            else unit_dependency_from_string name) with _ | dk
          · dsimp only
            by_cases h5 : name = "AddRef"
            · rw [if_pos h5]
              cases v <;> rfl
            · rw [if_neg h5]
          · dsimp only
            cases v <;> try rfl
            next l =>
              dsimp only
              rcases hdl : depsLoop dk maskedFlags l u with ⟨u1, r⟩
              have hu1 : u1 = u := by
                have := depsLoop_noop dk l u
                rw [hdl] at this
                exact this
              cases r <;> (subst hu1; rfl)

/-- With the target flags masked out and a subtype handler that does not
mutate under masked flags, one loop entry only validates. -/
theorem applyOnePropertyCore_noop (bsp : SubtypeHandler)
    (hnm : ∀ (w : SdUnit) (n : String) (v : Value), (bsp w n v maskedFlags).1 = w)
    (u : SdUnit) (name : String) (v : Value) :
    (applyOnePropertyCore bsp u name v maskedFlags).1 = u := by
  unfold applyOnePropertyCore
  rcases hb : bsp u name v maskedFlags with ⟨u1, r1⟩
  have hu1 : u1 = u := by
    have := hnm u name v
    rw [hb] at this
    exact this
  subst hu1
  cases r1 with
  | error e => rfl
  | ok b =>
    cases b with
    | true => rfl
    | false =>
      dsimp only
      by_cases hts : u1.transient = true ∧ u1.load_state = UnitLoadState.stub
      · rw [if_pos hts]
        rcases ht : bus_unit_set_transient_property u1 name v maskedFlags with ⟨u2, r2⟩
        have hu2 : u2 = u1 := by
          have := transient_prop_noop u1 name v
          rw [ht] at this
          exact this
        subst hu2
        cases r2 with
        | error e => rfl
        | ok b2 =>
          cases b2 with
          | true => rfl
          | false =>
            dsimp only
            rcases hl : bus_unit_set_live_property u2 name v maskedFlags with ⟨u3, r3⟩
            have hu3 : u3 = u2 := by
              have := live_prop_noop u2 name v
              rw [hl] at this
              exact this
            subst hu3
            cases r3 with
            | error e => rfl
            | ok b3 => cases b3 <;> rfl
      · rw [if_neg hts]
        dsimp only
        rcases hl : bus_unit_set_live_property u1 name v maskedFlags with ⟨u3, r3⟩
        have hu3 : u3 = u1 := by
          have := live_prop_noop u1 name v
          rw [hl] at this
          exact this
        subst hu3
        cases r3 with
        | error e => rfl
        | ok b3 => cases b3 <;> rfl

/-- The validation pass leaves the unit untouched. -/
theorem setPropsPass_noop_fst (h : SubtypeHandler)
    (hnm : ∀ (w : SdUnit) (n : String) (v : Value), (h w n v maskedFlags).1 = w) :
    ∀ (props : List (String × Value)) (u : SdUnit),
    (setPropsPass (some h) maskedFlags props u).1 = u := by
  intro props
  induction props with
  | nil => intro u; rfl
  | cons p rest ih =>
    intro u
    obtain ⟨name, v⟩ := p
    unfold setPropsPass
    show (match applyOneProperty (some h) u name v maskedFlags with
      | (u1, some e) => (u1, some e)
      | (u1, none) => setPropsPass (some h) maskedFlags rest u1).1 = u
    rcases ha : applyOneProperty (some h) u name v maskedFlags with ⟨u1, r1⟩
    have hu1 : u1 = u := by
      have : (applyOnePropertyCore h u name v maskedFlags).1 = u :=
        applyOnePropertyCore_noop h hnm u name v
      rw [show applyOnePropertyCore h u name v maskedFlags =
        applyOneProperty (some h) u name v maskedFlags from rfl, ha] at this
      exact this
    subst hu1
    cases r1 with
    | some e => rfl
    | none => exact ih u1

/-- If some entry of the batch fails validation against the original unit, the
validation pass fails. -/
theorem setPropsPass_noop_err (h : SubtypeHandler)
    (hnm : ∀ (w : SdUnit) (n : String) (v : Value), (h w n v maskedFlags).1 = w) :
    ∀ (props : List (String × Value)) (u : SdUnit),
    (∃ p ∈ props, ((applyOneProperty (some h) u p.1 p.2 maskedFlags).2).isSome = true) →
    ((setPropsPass (some h) maskedFlags props u).2).isSome = true := by
  intro props
  induction props with
  | nil =>
    intro u hbad
    rcases hbad with ⟨p, hp, _⟩
    exact absurd hp (List.not_mem_nil p)
  | cons q rest ih =>
    intro u hbad
    obtain ⟨name, v⟩ := q
    unfold setPropsPass
    show ((match applyOneProperty (some h) u name v maskedFlags with
      | (u1, some e) => (u1, some e)
      | (u1, none) => setPropsPass (some h) maskedFlags rest u1).2).isSome = true
    rcases ha : applyOneProperty (some h) u name v maskedFlags with ⟨u1, r1⟩
    have hu1 : u1 = u := by
      have : (applyOnePropertyCore h u name v maskedFlags).1 = u :=
        applyOnePropertyCore_noop h hnm u name v
      rw [show applyOnePropertyCore h u name v maskedFlags =
        applyOneProperty (some h) u name v maskedFlags from rfl, ha] at this
      exact this
    subst hu1
    cases r1 with
    | some e => rfl
    | none =>
      apply ih u1
      rcases hbad with ⟨p, hp, hq⟩
      rcases List.mem_cons.mp hp with hph | hpr
      · exfalso
        rw [hph] at hq
        rw [ha] at hq
        simp at hq
      · exact ⟨p, hpr, hq⟩

/-- Claim C1: a property batch containing an invalid entry anywhere makes
SetProperties fail with the unit left exactly as it was — the first pass runs
every handler with the mutation bits masked off and aborts before any commit
pass begins.  The subtype handler is assumed to honor the masked-flags
contract (no mutation during validation), which the handlers embedded in this
file provably do. -/
theorem set_properties_validate_before_commit (h : SubtypeHandler) (u : SdUnit)
    (props : List (String × Value)) (flags : UnitWriteFlags) (commit : Bool)
    (hnm : ∀ (w : SdUnit) (n : String) (v : Value), (h w n v maskedFlags).1 = w)
    (hbad : ∃ p ∈ props, ((applyOneProperty (some h) u p.1 p.2 maskedFlags).2).isSome = true) :
    ∃ e, bus_unit_set_properties (some h) u props flags commit = (u, .error e) := by
  have hfst := setPropsPass_noop_fst h hnm props u
  have herr := setPropsPass_noop_err h hnm props u hbad
  unfold bus_unit_set_properties
  rcases hps : setPropsPass (some h) maskedFlags props u with ⟨u1, r1⟩
  have hu1 : u1 = u := by rw [hps] at hfst; exact hfst
  rw [hps] at herr
  cases r1 with
  | some e =>
    subst hu1
    exact ⟨e, rfl⟩
  | none => simp at herr

/-- Witness for the C1 theorem: a two-entry batch whose second entry carries
an unrecognized condition type aborts with the stub unit unchanged. -/
theorem set_properties_validate_before_commit_witness :
    ∃ e, bus_unit_set_properties (some trivialSub) c1Unit c1Props runtimeFlags true =
      (c1Unit, .error e) :=
  set_properties_validate_before_commit trivialSub c1Unit c1Props runtimeFlags true
    (fun _ _ _ => rfl)
    ⟨("Conditions", .vconds [("Bogus", false, false, "x")]),
      by decide, by decide⟩

/-- The ownership check holds exactly when the process owner is known and
equals both the sender uid and the unit reference uid. -/
theorem attach_uid_ok_of_uid (sys : AttachSys) (u : UnitA) (q w : Nat)
    (hw : sys.process_uid q = .ok w) :
    attach_uid_ok sys u q = true ↔ (w = sys.sender_euid ∧ w = u.ref_uid) := by
  unfold attach_uid_ok
  rw [hw]
  by_cases hc : w = sys.sender_euid ∧ w = u.ref_uid <;> simp [hc]

/-- Every pid in a successfully validated set passed the ownership check (for
a sender that is neither root nor the manager itself). -/
theorem attachLoop_ok_valid (sys : AttachSys) (u : UnitA)
    (hs : sys.sender_euid ≠ 0 ∧ sys.sender_euid ≠ sys.getuid) :
    ∀ (upids pids S : List Nat),
    (∀ q ∈ pids, ∃ w, sys.process_uid q = .ok w ∧ w = sys.sender_euid ∧ w = u.ref_uid) →
    attachLoop sys u upids pids = .ok S →
    ∀ q ∈ S, ∃ w, sys.process_uid q = .ok w ∧ w = sys.sender_euid ∧ w = u.ref_uid := by
  intro upids
  induction upids with
  | nil =>
    intro pids S hinv h
    have hps : pids = S := by
      have h2 : (Except.ok pids : Except BusError (List Nat)) = .ok S := h
      exact Except.ok.inj h2
    subst hps
    exact hinv
  | cons upid rest ih =>
    intro pids S hinv h
    unfold attachLoop at h
    dsimp only at h
    by_cases hmem : resolve_pid sys upid ∈ pids
    · rw [if_pos hmem] at h
      exact ih pids S hinv h
    · rw [if_neg hmem] at h
      cases hatt : sys.pid_attachable (resolve_pid sys upid) with
      | some e => rw [hatt] at h; simp at h
      | none =>
        rw [hatt] at h
        dsimp only at h
        rw [if_pos hs] at h
        cases hpu : sys.process_uid (resolve_pid sys upid) with
        | error r => rw [hpu] at h; simp at h
        | ok w =>
          rw [hpu] at h
          dsimp only at h
          by_cases hw1 : w = sys.sender_euid
          · rw [if_neg (fun hc => hc hw1)] at h
            by_cases hw2 : w = u.ref_uid
            · rw [if_neg (fun hc => hc hw2)] at h
              refine ih (pids ++ [resolve_pid sys upid]) S ?_ h
              intro q hq
              rcases List.mem_append.mp hq with hq1 | hq2
              · exact hinv q hq1
              · have hq3 : q = resolve_pid sys upid := by
                  rcases List.mem_singleton.mp hq2 with hq3
                  exact hq3
                subst hq3
                exact ⟨w, hpu, hw1, hw2⟩
            · rw [if_pos hw2] at h; simp at h
          · rw [if_pos hw1] at h; simp at h

/-- A validation failure of the pid loop means the resource controller is
never invoked: the migration-call list of the whole method is empty. -/
theorem attach_no_migration_on_denial (sys : AttachSys) (u : UnitA)
    (path0 : String) (upids : List Nat) (e : BusError)
    (he : attachLoop sys u upids [] = .error e) :
    (bus_unit_method_attach_processes sys u path0 upids).2 = [] := by
  unfold bus_unit_method_attach_processes
  split
  · rfl
  · split
    · rfl
    · split
      · rfl
      · split
        · rfl
        · rw [he]

/-- The migration call is issued at most once, and only with the set produced
by a fully successful validation loop. -/
theorem attach_single_migration (sys : AttachSys) (u : UnitA)
    (path0 : String) (upids : List Nat) :
    (bus_unit_method_attach_processes sys u path0 upids).2 = [] ∨
    ∃ S, attachLoop sys u upids [] = .ok S ∧
      (bus_unit_method_attach_processes sys u path0 upids).2 = [S] := by
  unfold bus_unit_method_attach_processes
  split
  · exact Or.inl rfl
  · split
    · exact Or.inl rfl
    · split
      · exact Or.inl rfl
      · split
        · exact Or.inl rfl
        · cases hl : attachLoop sys u upids [] with
          | error e => exact Or.inl rfl
          | ok S =>
            right
            refine ⟨S, rfl, ?_⟩
            dsimp only
            cases hm : sys.migrate S with
            | error r => rfl
            | ok x => rfl

/-- When every requested pid is attachable and its owner resolvable, the first
pid failing the ownership check aborts the loop with an access-denied error
naming that pid. -/
theorem attachLoop_first_denial (sys : AttachSys) (u : UnitA)
    (hs : sys.sender_euid ≠ 0 ∧ sys.sender_euid ≠ sys.getuid) :
    ∀ (upids pids : List Nat) (q0 : Nat),
    (∀ q ∈ upids.map (resolve_pid sys), sys.pid_attachable q = none) →
    (∀ q ∈ upids.map (resolve_pid sys), ∃ w, sys.process_uid q = .ok w) →
    (∀ q ∈ pids, attach_uid_ok sys u q = true) →
    (upids.map (resolve_pid sys)).find? (fun q => !attach_uid_ok sys u q) = some q0 →
    ∃ m, attachLoop sys u upids pids = .error ⟨.accessDenied, m⟩ ∧
      (m = attach_client_msg q0 ∨ m = attach_unit_msg q0) := by
  intro upids
  induction upids with
  | nil =>
    intro pids q0 _ _ _ hfind
    simp at hfind
  | cons upid rest ih =>
    intro pids q0 hatt hres hpinv hfind
    have hatth : sys.pid_attachable (resolve_pid sys upid) = none :=
      hatt _ (by simp)
    have hresh : ∃ w, sys.process_uid (resolve_pid sys upid) = .ok w :=
      hres _ (by simp)
    obtain ⟨w, hpu⟩ := hresh
    rw [List.map_cons, List.find?_cons] at hfind
    cases hok : attach_uid_ok sys u (resolve_pid sys upid) with
    | true =>
      rw [hok] at hfind
      simp only [Bool.not_true] at hfind
      unfold attachLoop
      dsimp only
      by_cases hmem : resolve_pid sys upid ∈ pids
      · rw [if_pos hmem]
        exact ih pids q0 (fun q hq => hatt q (by simp [hq]))
          (fun q hq => hres q (by simp [hq])) hpinv hfind
      · rw [if_neg hmem]
        rw [hatth]
        dsimp only
        rw [if_pos hs, hpu]
        dsimp only
        have hw12 : w = sys.sender_euid ∧ w = u.ref_uid :=
          (attach_uid_ok_of_uid sys u _ w hpu).mp hok
        rw [if_neg (fun hc => hc hw12.1), if_neg (fun hc => hc hw12.2)]
        refine ih (pids ++ [resolve_pid sys upid]) q0
          (fun q hq => hatt q (by simp [hq]))
          (fun q hq => hres q (by simp [hq])) ?_ hfind
        intro q hq
        rcases List.mem_append.mp hq with hq1 | hq2
        · exact hpinv q hq1
        · rw [List.mem_singleton.mp hq2]
          exact hok
    | false =>
      rw [hok] at hfind
      simp only [Bool.not_false] at hfind
      have hq0 : resolve_pid sys upid = q0 := Option.some.inj hfind
      subst hq0
      have hmem : ¬ resolve_pid sys upid ∈ pids := by
        intro hm
        have := hpinv _ hm
        rw [this] at hok
        cases hok
      have hnot : ¬ (w = sys.sender_euid ∧ w = u.ref_uid) := by
        intro hc
        have := (attach_uid_ok_of_uid sys u _ w hpu).mpr hc
        rw [this] at hok
        cases hok
      unfold attachLoop
      dsimp only
      rw [if_neg hmem, hatth]
      dsimp only
      rw [if_pos hs, hpu]
      dsimp only
      by_cases hw1 : w = sys.sender_euid
      · have hw2 : ¬ w = u.ref_uid := fun hc => hnot ⟨hw1, hc⟩
        rw [if_neg (fun hc => hc hw1), if_pos hw2]
        exact ⟨attach_unit_msg (resolve_pid sys upid), rfl, Or.inr rfl⟩
      · rw [if_pos hw1]
        exact ⟨attach_client_msg (resolve_pid sys upid), rfl, Or.inl rfl⟩

/-- Claim C2: for a sender that is neither root nor the manager's own uid,
AttachProcesses succeeds only when every validated pid is owned by a uid equal
to both the sender's effective uid and the unit's reference uid; the first pid
failing that check aborts the loop with an access-denied error naming it, any
validation failure means the resource controller is never invoked, and the
single migration call only ever happens with the fully validated set. -/
theorem attach_ownership_gate (sys : AttachSys) (u : UnitA) (path0 : String)
    (upids : List Nat)
    (hs : sys.sender_euid ≠ 0 ∧ sys.sender_euid ≠ sys.getuid) :
    (∀ S, attachLoop sys u upids [] = .ok S →
      ∀ q ∈ S, ∃ w, sys.process_uid q = .ok w ∧ w = sys.sender_euid ∧ w = u.ref_uid) ∧
    (∀ e, attachLoop sys u upids [] = .error e →
      (bus_unit_method_attach_processes sys u path0 upids).2 = []) ∧
    ((bus_unit_method_attach_processes sys u path0 upids).2 = [] ∨
      ∃ S, attachLoop sys u upids [] = .ok S ∧
        (bus_unit_method_attach_processes sys u path0 upids).2 = [S]) ∧
    (∀ q0, (∀ q ∈ upids.map (resolve_pid sys), sys.pid_attachable q = none) →
      (∀ q ∈ upids.map (resolve_pid sys), ∃ w, sys.process_uid q = .ok w) →
      (upids.map (resolve_pid sys)).find? (fun q => !attach_uid_ok sys u q) = some q0 →
      ∃ m, attachLoop sys u upids [] = .error ⟨.accessDenied, m⟩ ∧
        (m = attach_client_msg q0 ∨ m = attach_unit_msg q0)) :=
  ⟨fun S hS => attachLoop_ok_valid sys u hs upids [] S
      (fun q hq => absurd hq (List.not_mem_nil q)) hS,
    fun e he => attach_no_migration_on_denial sys u path0 upids e he,
    attach_single_migration sys u path0 upids,
    fun q0 hatt hres hfind => attachLoop_first_denial sys u hs upids [] q0 hatt hres
      (fun q hq => absurd hq (List.not_mem_nil q)) hfind⟩

/-- Witness for the C2 theorem: uid-1000 sender attaching pids 41 (owned by
1000) and 42 (owned by 1001) to a unit with reference uid 1000 is denied with
an error naming pid 42, and nothing is migrated. -/
theorem attach_ownership_gate_witness :
    (∃ m, attachLoop c2Sys c2Unit [41, 42] [] = .error ⟨.accessDenied, m⟩ ∧
      (m = attach_client_msg 42 ∨ m = attach_unit_msg 42)) ∧
    (bus_unit_method_attach_processes c2Sys c2Unit "" [41, 42]).2 = [] := by
  have h := attach_ownership_gate c2Sys c2Unit "" [41, 42] ⟨by decide, by decide⟩
  have hden := h.2.2.2 42 (fun q _ => rfl)
    (fun q _ => ⟨if q = 42 then 1001 else 1000, rfl⟩) (by decide)
  refine ⟨hden, ?_⟩
  obtain ⟨m, hm, _⟩ := hden
  exact h.2.1 ⟨ErrClass.accessDenied, m⟩ hm

/-- The walk invariant: every reply row's pid is in the dedup set, and the
reply contains no pid twice. -/
def WalkInv (st : List ProcEntry × List Nat) : Prop :=
  (∀ e ∈ st.1, e.pid ∈ st.2) ∧ (st.1.map ProcEntry.pid).Nodup

/-- `append_process` preserves the walk invariant and only grows the dedup
set: a pid already in the set is never appended again. -/
theorem append_process_inv (env : ProcEnv) (p : Option String) (pid : Nat)
    (reply : List ProcEntry) (pids : List Nat)
    (st' : List ProcEntry × List Nat)
    (hinv : WalkInv (reply, pids))
    (h : append_process env p pid reply pids = .ok st') :
    WalkInv st' ∧ ∀ q ∈ pids, q ∈ st'.2 := by
  obtain ⟨hmem, hnd⟩ := hinv
  have hA : WalkInv (reply, pid :: pids) :=
    ⟨fun e he => List.mem_cons_of_mem _ (hmem e he), hnd⟩
  unfold append_process at h
  by_cases hin : pid ∈ pids
  · rw [if_pos hin] at h
    have hst : (reply, pids) = st' := Except.ok.inj h
    subst hst
    exact ⟨⟨hmem, hnd⟩, fun q hq => hq⟩
  · have hnp : pid ∉ reply.map ProcEntry.pid := by
      intro hmap
      rcases List.mem_map.mp hmap with ⟨e, he, hep⟩
      exact hin (hep ▸ hmem e he)
    have hB : ∀ g : String,
        WalkInv (reply ++ [ProcEntry.mk g pid (env.cmdline pid)], pid :: pids) := by
      intro g
      constructor
      · intro e he
        rcases List.mem_append.mp he with h1 | h2
        · exact List.mem_cons_of_mem _ (hmem e h1)
        · rw [List.mem_singleton.mp h2]
          exact List.mem_cons_self _ _
      · show ((reply ++ [ProcEntry.mk g pid (env.cmdline pid)]).map ProcEntry.pid).Nodup
        rw [List.map_append, List.nodup_append]
        refine ⟨hnd, List.nodup_singleton _, ?_⟩
        intro a ha hb
        rw [List.mem_singleton.mp hb] at ha
        exact hnp ha
    rw [if_neg hin] at h
    dsimp only at h
    cases p with
    | some g =>
      dsimp only at h
      have hst : (reply ++ [ProcEntry.mk g pid (env.cmdline pid)], pid :: pids) = st' :=
        Except.ok.inj h
      subst hst
      exact ⟨hB g, fun q hq => List.mem_cons_of_mem _ hq⟩
    | none =>
      dsimp only at h
      cases hpg : env.cg_pid_get_path pid with
      | error r =>
        rw [hpg] at h
        dsimp only at h
        by_cases hr : r = -ESRCH
        · rw [if_pos hr] at h
          have hst : (reply, pid :: pids) = st' := Except.ok.inj h
          subst hst
          exact ⟨hA, fun q hq => List.mem_cons_of_mem _ hq⟩
        · rw [if_neg hr] at h
          cases h
      | ok g =>
        rw [hpg] at h
        dsimp only at h
        have hst : (reply ++ [ProcEntry.mk g pid (env.cmdline pid)], pid :: pids) = st' :=
          Except.ok.inj h
        subst hst
        exact ⟨hB g, fun q hq => List.mem_cons_of_mem _ hq⟩

/-- The process loop preserves the walk invariant and grows the dedup set. -/
theorem appendPids_inv (env : ProcEnv) (p : String) :
    ∀ (l : List Nat) (reply : List ProcEntry) (pids : List Nat)
      (st' : List ProcEntry × List Nat),
    WalkInv (reply, pids) →
    appendPids env p l reply pids = .ok st' →
    WalkInv st' ∧ ∀ q ∈ pids, q ∈ st'.2 := by
  intro l
  induction l with
  | nil =>
    intro reply pids st' hinv h
    have hst : (reply, pids) = st' := Except.ok.inj h
    subst hst
    exact ⟨hinv, fun q hq => hq⟩
  | cons pid rest ih =>
    intro reply pids st' hinv h
    unfold appendPids at h
    by_cases hk : env.is_kernel_thread pid > 0
    · rw [if_pos hk] at h
      exact ih reply pids st' hinv h
    · rw [if_neg hk] at h
      cases hap : append_process env (some p) pid reply pids with
      | error r => rw [hap] at h; cases h
      | ok st1 =>
        obtain ⟨a, b⟩ := st1
        rw [hap] at h
        dsimp only at h
        obtain ⟨hinv1, hsub1⟩ :=
          append_process_inv env (some p) pid reply pids (a, b) hinv hap
        obtain ⟨hinv2, hsub2⟩ := ih a b st' hinv1 h
        exact ⟨hinv2, fun q hq => hsub2 q (hsub1 q hq)⟩

mutual
/-- The recursive walk preserves the walk invariant and grows the dedup set. -/
theorem append_cgroup_inv (env : ProcEnv) (p : String) (t : CgTree)
    (reply : List ProcEntry) (pids : List Nat) (st' : List ProcEntry × List Nat)
    (hinv : WalkInv (reply, pids))
    (h : append_cgroup env p t reply pids = .ok st') :
    WalkInv st' ∧ ∀ q ∈ pids, q ∈ st'.2 := by
  match t with
  | .node procsR subsR =>
    unfold append_cgroup at h
    cases procsR with
    | error r =>
      dsimp only at h
      by_cases hr : r = ENOENT
      · rw [if_pos hr] at h
        have hst : (reply, pids) = st' := Except.ok.inj h
        subst hst
        exact ⟨hinv, fun q hq => hq⟩
      · rw [if_neg hr] at h
        cases h
    | ok pl =>
      dsimp only at h
      cases hap : appendPids env p pl reply pids with
      | error r => rw [hap] at h; cases h
      | ok st1 =>
        obtain ⟨a, b⟩ := st1
        rw [hap] at h
        dsimp only at h
        obtain ⟨hinv1, hsub1⟩ := appendPids_inv env p pl reply pids (a, b) hinv hap
        cases subsR with
        | fail r =>
          dsimp only at h
          by_cases hr : r = -ENOENT
          · rw [if_pos hr] at h
            have hst : (a, b) = st' := Except.ok.inj h
            subst hst
            exact ⟨hinv1, hsub1⟩
          · rw [if_neg hr] at h
            cases h
        | found children =>
          obtain ⟨hinv2, hsub2⟩ := walkSubgroups_inv env p children a b st' hinv1 h
          exact ⟨hinv2, fun q hq => hsub2 q (hsub1 q hq)⟩

/-- The subgroup loop preserves the walk invariant and grows the dedup set. -/
theorem walkSubgroups_inv (env : ProcEnv) (p : String) (l : CgForest)
    (reply : List ProcEntry) (pids : List Nat) (st' : List ProcEntry × List Nat)
    (hinv : WalkInv (reply, pids))
    (h : walkSubgroups env p l reply pids = .ok st') :
    WalkInv st' ∧ ∀ q ∈ pids, q ∈ st'.2 := by
  match l with
  | .nil =>
    unfold walkSubgroups at h
    have hst : (reply, pids) = st' := Except.ok.inj h
    subst hst
    exact ⟨hinv, fun q hq => hq⟩
  | .cons g t rest =>
    unfold walkSubgroups at h
    cases hac : append_cgroup env (p ++ "/" ++ g) t reply pids with
    | error r => rw [hac] at h; cases h
    | ok st1 =>
      obtain ⟨a, b⟩ := st1
      rw [hac] at h
      dsimp only at h
      obtain ⟨hinv1, hsub1⟩ :=
        append_cgroup_inv env (p ++ "/" ++ g) t reply pids (a, b) hinv hac
      obtain ⟨hinv2, hsub2⟩ := walkSubgroups_inv env p rest a b st' hinv1 h
      exact ⟨hinv2, fun q hq => hsub2 q (hsub1 q hq)⟩
end

/-- Appending an optional recorded pid preserves the walk invariant. -/
theorem appendOptPid_inv (env : ProcEnv) (pid : Nat)
    (st st' : List ProcEntry × List Nat)
    (hinv : WalkInv st) (h : appendOptPid env pid st = .ok st') :
    WalkInv st' ∧ ∀ q ∈ st.2, q ∈ st'.2 := by
  unfold appendOptPid at h
  by_cases hp : pid > 0
  · rw [if_pos hp] at h
    obtain ⟨a, b⟩ := st
    exact append_process_inv env none pid a b st' hinv h
  · rw [if_neg hp] at h
    have hst : st = st' := Except.ok.inj h
    subst hst
    exact ⟨hinv, fun q hq => hq⟩

/-- Claim C7: GetProcesses never reports the same pid twice — the dedup set
threaded through the recursive cgroup walk and through the subsequent
main/control pid appends keeps the reply pid-unique. -/
theorem get_processes_dedup (env : ProcEnv) (tree : CgTree) (u : UnitCg)
    (l : List ProcEntry)
    (h : bus_unit_method_get_processes env tree u = .ok l) :
    (l.map ProcEntry.pid).Nodup := by
  unfold bus_unit_method_get_processes at h
  have hinv0 : WalkInv ([], []) :=
    ⟨fun e he => absurd he (List.not_mem_nil e), List.nodup_nil⟩
  have stage1 : ∃ st1, (match u.cgroup_path with
      | some cp => append_cgroup env cp tree [] []
      | none => .ok ([], [])) = .ok st1 ∧ WalkInv st1 := by
    cases hcp : u.cgroup_path with
    | none => exact ⟨([], []), rfl, hinv0⟩
    | some cp =>
      cases hac : append_cgroup env cp tree [] [] with
      | error r =>
        rw [hcp] at h
        dsimp only at h
        rw [hac] at h
        simp at h
      | ok st1 =>
        exact ⟨st1, hac, (append_cgroup_inv env cp tree [] [] st1 hinv0 hac).1⟩
  obtain ⟨st1, hst1, hinv1⟩ := stage1
  rw [hst1] at h
  dsimp only at h
  cases hs2 : appendOptPid env u.main_pid st1 with
  | error r => rw [hs2] at h; cases h
  | ok st2 =>
    rw [hs2] at h
    dsimp only at h
    obtain ⟨hinv2, _⟩ := appendOptPid_inv env u.main_pid st1 st2 hinv1 hs2
    cases hs3 : appendOptPid env u.control_pid st2 with
    | error r => rw [hs3] at h; cases h
    | ok st3 =>
      rw [hs3] at h
      dsimp only at h
      obtain ⟨hinv3, _⟩ := appendOptPid_inv env u.control_pid st2 st3 hinv2 hs3
      have hl : st3.1 = l := Except.ok.inj h
      rw [← hl]
      exact hinv3.2

/-- Witness for the C7 theorem: pid 5 is reachable at the subtree root, in a
child group, and as the recorded main pid, yet is reported exactly once. -/
theorem get_processes_dedup_witness :
    (([⟨"/g", 5, "cmd"⟩, ⟨"/g", 6, "cmd"⟩] : List ProcEntry).map ProcEntry.pid).Nodup :=
  get_processes_dedup c7Env c7Tree c7UnitCg
    [⟨"/g", 5, "cmd"⟩, ⟨"/g", 6, "cmd"⟩] rfl

end Systemd
